import Mathlib

/-!
Verification of the HRRR viewer pipeline (hrrr_viewer.py).

The development shallowly embeds the per-task fetch/decode/render pipeline,
its failure classification, the pure helpers (`get_latest_model_run`,
`construct_s3_path`), and the parallel scheduler (`process_full_run`).

Timestamps are modelled as whole microseconds since an epoch (an `Int`),
matching the resolution of Python's `datetime`.  External collaborators
(S3, cfgrib, matplotlib) are modelled by stage behaviours: how long the
stage takes, and what it returns or raises when allowed to finish.  The
alarm-based `timeout` context manager becomes a bound check on the stage
duration.  The worker pool's `imap_unordered` delivery is modelled by an
explicit completion-order list, and a pool-level fault by an optional
count of results collected before the fault.
-/

/-! ## Timestamp model and get_latest_model_run (hrrr_viewer.py lines 52-59) -/

def usPerSecond : Int := 1000000

def usPerMinute : Int := 60000000

def usPerHour : Int := 3600000000

def usPerDay : Int := 86400000000

/-- The `minute` field of a `datetime` held as microseconds since the epoch. -/
def pyMinute (t : Int) : Int := t % usPerHour / usPerMinute

/-- The `second` field of a `datetime` held as microseconds since the epoch. -/
def pySecond (t : Int) : Int := t % usPerMinute / usPerSecond

/-- The `microsecond` field of a `datetime` held as microseconds since the epoch. -/
def pyMicrosecond (t : Int) : Int := t % usPerSecond

/-- The `hour` field of a `datetime` held as microseconds since the epoch. -/
def pyHour (t : Int) : Int := t % usPerDay / usPerHour

/-- Python's `t.replace(minute=0, second=0, microsecond=0)`: zero the three
sub-hour fields, keeping date and hour. -/
def replaceSubHourZero (t : Int) : Int :=
  t - pyMinute t * usPerMinute - pySecond t * usPerSecond - pyMicrosecond t

/-- `HRRRViewer.get_latest_model_run`, with `datetime.utcnow()` passed in as
the parameter `now`: subtract the 3 hour publication-latency offset, then
round down to the nearest hour. -/
def get_latest_model_run (now : Int) : Int :=
  let model_time := now - 3 * usPerHour
  replaceSubHourZero model_time

/-! ## Decimal formatting and construct_s3_path (hrrr_viewer.py lines 61-70) -/

/-- Decimal digits of `n`, most significant first; `0` prints as a single
digit, as in Python. -/
def decDigits (n : Nat) : List Nat :=
  if n = 0 then [0] else (Nat.digits 10 n).reverse

/-- Decimal character representation of `n`, as produced by `str(n)`. -/
def decChars (n : Nat) : List Char :=
  (decDigits n).map Nat.digitChar

/-- Python's `f"{n:02d}"`: zero-pad the decimal representation to width 2. -/
def pad2 (n : Nat) : List Char :=
  if n < 10 then '0' :: decChars n else decChars n

/-- Zero-pad the decimal representation to width 4 (strftime `%Y`). -/
def pad4 (n : Nat) : List Char :=
  List.replicate (4 - (decChars n).length) '0' ++ decChars n

/-- Proleptic Gregorian calendar date for a day number counted from the epoch
(the civil-from-days algorithm used by `datetime`): year, month, day. -/
def civilFromDays (z0 : Int) : Int × Int × Int :=
  let z := z0 + 719468
  let era := z / 146097
  let doe := z - era * 146097
  let yoe := (doe - doe / 1460 + doe / 36524 - doe / 146096) / 365
  let y := yoe + era * 400
  let doy := doe - (365 * yoe + yoe / 4 - yoe / 100)
  let mp := (5 * doy + 2) / 153
  let d := doy - (153 * mp + 2) / 5 + 1
  let m := mp + (if mp < 10 then 3 else -9)
  (y + (if m ≤ 2 then 1 else 0), m, d)

/-- `model_time.strftime('%Y%m%d')`. -/
def dateStr (t : Int) : List Char :=
  let c := civilFromDays (t / usPerDay)
  pad4 c.1.toNat ++ pad2 c.2.1.toNat ++ pad2 c.2.2.toNat

/-- `model_time.strftime('%H')`. -/
def hourStr (t : Int) : List Char :=
  pad2 (pyHour t).toNat

/-- `HRRRViewer.construct_s3_path`: the fixed key template
`noaa-hrrr-bdp-pds/hrrr.YYYYMMDD/conus/hrrr.tHHz.wrfsfcfFF.grib2`. -/
def construct_s3_path (model_time : Int) (forecast_hour : Nat) : List Char :=
  "noaa-hrrr-bdp-pds/hrrr.".data ++ dateStr model_time ++
    "/conus/hrrr.t".data ++ hourStr model_time ++
    "z.wrfsfcf".data ++ pad2 forecast_hour ++ ".grib2".data

/-! ## Stage behaviour model: exceptions and the alarm-based timeout
(hrrr_viewer.py lines 27-44) -/

/-- Exceptions that can cross a stage boundary: the module's own
`TimeoutException`, `FileNotFoundError`, or any other `Exception`
carrying its type name and message. -/
inductive PyExc where
  | timeoutExc : PyExc
  | fileNotFound : PyExc
  | other (excTypeName msg : String) : PyExc
deriving DecidableEq

/-- What an external stage would do if allowed to run to completion: how many
time units it takes, and the value it returns or the exception it raises. -/
structure StageBehavior (α : Type) where
  duration : Nat
  result : Except PyExc α

/-- The `timeout(seconds)` context manager wrapping a stage: if the stage's
duration exceeds the bound, the alarm fires and `TimeoutException` is raised
in place of whatever the stage would have produced; otherwise the stage's own
outcome stands. -/
def runWithTimeout {α : Type} (bound : Nat) (b : StageBehavior α) : Except PyExc α :=
  if bound < b.duration then .error .timeoutExc else b.result

/-! ## Fetch + decode stage (hrrr_viewer.py lines 72-110) -/

/-- The dataset delivered by `xr.open_dataset` with the cfgrib filter: which
of the fields `t2m` and `t` are present, and the coordinate arrays.  Grids are
modelled by a single rational sample value. -/
structure RawDataset where
  t2m : Option ℚ
  t : Option ℚ
  latitude : Option ℚ
  longitude : Option ℚ
deriving DecidableEq

/-- Kelvin to Fahrenheit conversion `(v - 273.15) * 9/5 + 32`. -/
def kToF (v : ℚ) : ℚ := (v - 273.15) * 9 / 5 + 32

/-- The body of the `with timeout(60)` block after the dataset is open:
select `t2m`, falling back to `t` (a missing field raises `KeyError`),
convert units, then read the coordinate arrays. -/
def fetchBlock (ds : RawDataset) : Except PyExc (ℚ × ℚ × ℚ × RawDataset) := do
  let temp_k ← match ds.t2m with
    | some v => Except.ok v
    | none => match ds.t with
      | some v => Except.ok v
      | none => Except.error (.other "KeyError" "t")
  let temp_f := kToF temp_k
  let lats ← match ds.latitude with
    | some v => Except.ok v
    | none => Except.error (.other "KeyError" "latitude")
  let lons ← match ds.longitude with
    | some v => Except.ok v
    | none => Except.error (.other "KeyError" "longitude")
  Except.ok (temp_f, lats, lons, ds)

/-- The whole guarded fetch+decode attempt: the timeout bound applies to the
open/decode work, and field extraction runs only if the bound was not hit. -/
def fetchAttempt (b : StageBehavior RawDataset) : Except PyExc (ℚ × ℚ × ℚ × RawDataset) :=
  (runWithTimeout 60 b).bind fetchBlock

/-- One line printed by the pipeline; these are the only places the code
names a failure category. -/
inductive LogEvent where
  | processing (h : Nat)
  | decoded (h : Nat)
  | fetchTimeout (h : Nat)
  | fileNotFound (h : Nat) (path : List Char)
  | fetchError (h : Nat) (excTypeName msg : String)
  | saved (h : Nat) (filename : List Char)
  | plotTimeout (h : Nat)
  | plotError (h : Nat) (excTypeName : String)
deriving DecidableEq

/-- The `except` ladder of `download_and_process_grib`: `TimeoutException`,
then `FileNotFoundError`, then any other `Exception` (message truncated to
100 characters). -/
def fetchFailureLog (h : Nat) (s3_path : List Char) : PyExc → LogEvent
  | .timeoutExc => .fetchTimeout h
  | .fileNotFound => .fileNotFound h s3_path
  | .other n m => .fetchError h n (m.take 100)

/-- `HRRRViewer.download_and_process_grib`: run the guarded fetch+decode and
classify the outcome; every failure is converted to a `None` result plus a
printed category. -/
def download_and_process_grib (b : StageBehavior RawDataset) (s3_path : List Char)
    (forecast_hour : Nat) : Option (ℚ × ℚ × ℚ × RawDataset) × List LogEvent :=
  match fetchAttempt b with
  | .ok d => (some d, [.processing forecast_hour, .decoded forecast_hour])
  | .error e => (none, [.processing forecast_hour, fetchFailureLog forecast_hour s3_path e])

/-! ## Render stage (hrrr_viewer.py lines 112-162) -/

/-- The `__name__` of an exception's type, as printed by the render handler. -/
def excName : PyExc → String
  | .timeoutExc => "TimeoutException"
  | .fileNotFound => "FileNotFoundError"
  | .other n _ => n

/-- Output file name `hrrr_temp_f{forecast_hour:02d}.png`. -/
def fileNameFor (forecast_hour : Nat) : List Char :=
  "hrrr_temp_f".data ++ pad2 forecast_hour ++ ".png".data

/-- `self.output_dir / filename`. -/
def filePathFor (outDir : List Char) (forecast_hour : Nat) : List Char :=
  outDir ++ '/' :: fileNameFor forecast_hour

/-- `HRRRViewer.create_temperature_map`: draw and save under a 30 unit bound;
`TimeoutException` and any other `Exception` each yield `None` with their own
printed tag. -/
def create_temperature_map (render : StageBehavior Unit) (outDir : List Char)
    (temp_f lats lons : ℚ) (model_time : Int) (forecast_hour : Nat) :
    Option (List Char) × List LogEvent :=
  match runWithTimeout 30 render with
  | .ok _ => (some (filePathFor outDir forecast_hour),
      [.saved forecast_hour (fileNameFor forecast_hour)])
  | .error .timeoutExc => (none, [.plotTimeout forecast_hour])
  | .error e => (none, [.plotError forecast_hour (excName e)])

/-! ## Per-task pipeline (hrrr_viewer.py lines 164-183) -/

/-- The external world as seen by one task: what the fetch+decode stage and
the render stage would each do. -/
structure TaskEnv where
  fetch : StageBehavior RawDataset
  render : StageBehavior Unit

/-- The tuple `(forecast_hour, filepath, success)` a task returns to the
pool. -/
structure TaskResult where
  forecast_hour : Nat
  filepath : Option (List Char)
  success : Bool
deriving DecidableEq

/-- `HRRRViewer.process_single_hour`: resolve the key, fetch+decode, and if
that produced data, render; package the outcome as a `(hour, path, success)`
triple in every case. -/
def process_single_hour (outDir : List Char) (env : TaskEnv) (model_time : Int)
    (forecast_hour : Nat) : TaskResult × List LogEvent :=
  let s3_path := construct_s3_path model_time forecast_hour
  let fetched := download_and_process_grib env.fetch s3_path forecast_hour
  match fetched.1 with
  | some d =>
    let rendered := create_temperature_map env.render outDir d.1 d.2.1 d.2.2.1
        model_time forecast_hour
    match rendered.1 with
    | some fp => (⟨forecast_hour, some fp, true⟩, fetched.2 ++ rendered.2)
    | none => (⟨forecast_hour, none, false⟩, fetched.2 ++ rendered.2)
  | none => (⟨forecast_hour, none, false⟩, fetched.2)

/-! ## Scheduler (hrrr_viewer.py lines 185-252) -/

/-- Results as delivered by `pool.imap_unordered`: one per submitted task, in
an arbitrary completion order given by `order`. -/
def deliveredResults (outDir : List Char) (envs : Nat → TaskEnv) (now : Int)
    (order : List Nat) : List TaskResult :=
  order.map fun h => (process_single_hour outDir (envs h) (get_latest_model_run now) h).1

/-- The collection loop of `process_full_run`: partition delivered results
into `generated_files` pairs and `failed_hours`, preserving arrival order. -/
def collectResults : List TaskResult → List (Nat × List Char) × List Nat
  | [] => ([], [])
  | r :: rest =>
    match r.filepath, r.success with
    | some fp, true =>
      let acc := collectResults rest
      ((r.forecast_hour, fp) :: acc.1, acc.2)
    | _, _ =>
      let acc := collectResults rest
      (acc.1, r.forecast_hour :: acc.2)

/-- `generated_files.sort(key=lambda x: x[0])`: stable sort by forecast
hour. -/
def sortByHour (l : List (Nat × List Char)) : List (Nat × List Char) :=
  l.mergeSort fun a b => Nat.ble a.1 b.1

/-- `sorted(failed_hours)` as printed in the summary. -/
def sortNat (l : List Nat) : List Nat :=
  l.mergeSort Nat.ble

/-- The value of the local `generated_files` when `process_full_run`
returns: stripped sorted paths after a clean run, raw collected
`(hour, path)` pairs when the pool machinery faulted before the sort. -/
inductive RunValue where
  | paths (ps : List (List Char))
  | pairs (ps : List (Nat × List Char))
deriving DecidableEq

/-- What one invocation of `process_full_run` returns and reports in its
summary block. -/
structure RunReport where
  returned : RunValue
  failed_hours : List Nat
  success_count : Nat
  total_count : Nat
  failed_sorted : List Nat
deriving DecidableEq

/-- `HRRRViewer.process_full_run`: dispatch hours `0..max_forecast_hours`,
collect in completion order, and either sort and strip the successes (clean
run) or keep whatever was collected when the pool faulted after `k` results
(`poolFault = some k`); in both cases fall through to the summary. -/
def process_full_run (outDir : List Char) (envs : Nat → TaskEnv) (now : Int)
    (order : List Nat) (poolFault : Option Nat) (max_forecast_hours : Nat) : RunReport :=
  let total := max_forecast_hours + 1
  match poolFault with
  | none =>
    let acc := collectResults (deliveredResults outDir envs now order)
    let sortedFiles := sortByHour acc.1
    { returned := .paths (sortedFiles.map Prod.snd)
      failed_hours := acc.2
      success_count := (sortedFiles.map Prod.snd).length
      total_count := total
      failed_sorted := sortNat acc.2 }
  | some k =>
    let acc := collectResults ((deliveredResults outDir envs now order).take k)
    { returned := .pairs acc.1
      failed_hours := acc.2
      success_count := acc.1.length
      total_count := total
      failed_sorted := sortNat acc.2 }

/-! ## Helper lemmas about the per-task pipeline -/

/-- Full case analysis of one task: the delivered triple and the printed log
are determined by the classification of the two guarded stages. -/
theorem process_single_hour_eq (outDir : List Char) (env : TaskEnv) (mt : Int) (h : Nat) :
    process_single_hour outDir env mt h =
      match fetchAttempt env.fetch with
      | .error e => (⟨h, none, false⟩,
          [.processing h, fetchFailureLog h (construct_s3_path mt h) e])
      | .ok _ =>
        match runWithTimeout 30 env.render with
        | .ok _ => (⟨h, some (filePathFor outDir h), true⟩,
            [.processing h, .decoded h, .saved h (fileNameFor h)])
        | .error .timeoutExc => (⟨h, none, false⟩,
            [.processing h, .decoded h, .plotTimeout h])
        | .error e => (⟨h, none, false⟩,
            [.processing h, .decoded h, .plotError h (excName e)]) := by
  unfold process_single_hour download_and_process_grib create_temperature_map
  cases hf : fetchAttempt env.fetch with
  | ok d =>
    cases hr : runWithTimeout 30 env.render with
    | ok u => simp
    | error e => cases e <;> simp
  | error e => simp

/-- Every task delivers one of exactly two triple shapes. -/
theorem process_single_hour_shape (outDir : List Char) (env : TaskEnv) (mt : Int) (h : Nat) :
    (∃ lg, process_single_hour outDir env mt h = (⟨h, some (filePathFor outDir h), true⟩, lg))
    ∨ (∃ lg, process_single_hour outDir env mt h = (⟨h, none, false⟩, lg)) := by
  rw [process_single_hour_eq]
  cases fetchAttempt env.fetch with
  | error e => exact Or.inr ⟨_, rfl⟩
  | ok d =>
    cases runWithTimeout 30 env.render with
    | ok u => exact Or.inl ⟨_, rfl⟩
    | error e => cases e <;> exact Or.inr ⟨_, rfl⟩

/-- The delivered triple as a function of the two stage classifications. -/
theorem process_single_hour_fst (outDir : List Char) (env : TaskEnv) (mt : Int) (h : Nat) :
    (process_single_hour outDir env mt h).1 =
      if (fetchAttempt env.fetch).isOk ∧ (runWithTimeout 30 env.render).isOk
      then ⟨h, some (filePathFor outDir h), true⟩ else ⟨h, none, false⟩ := by
  rw [process_single_hour_eq]
  cases fetchAttempt env.fetch with
  | error e => simp [Except.isOk, Except.toBool]
  | ok d =>
    cases hr : runWithTimeout 30 env.render with
    | ok u => simp [Except.isOk, Except.toBool]
    | error e => cases e <;> simp [Except.isOk, Except.toBool]

/-! ## Claims about the locator and the per-task pipeline -/

/-- Zeroing minute, second and microsecond removes precisely the remainder
modulo one hour. -/
theorem replaceSubHourZero_eq (t : Int) : replaceSubHourZero t = t - t % usPerHour := by
  unfold replaceSubHourZero pyMinute pySecond pyMicrosecond usPerHour usPerMinute usPerSecond
  omega

theorem sub_emod_emod_usPerHour (t : Int) : (t - t % usPerHour) % usPerHour = 0 := by
  unfold usPerHour
  omega

theorem sub_emod_emod_usPerMinute (t : Int) : (t - t % usPerHour) % usPerMinute = 0 := by
  unfold usPerHour usPerMinute
  omega

theorem sub_emod_emod_usPerSecond (t : Int) : (t - t % usPerHour) % usPerSecond = 0 := by
  unfold usPerHour usPerSecond
  omega

theorem sub_emod_eq_hour_floor (t : Int) : t - t % usPerHour = usPerHour * (t / usPerHour) := by
  unfold usPerHour
  omega

/-- C9: for every input timestamp `now`, `get_latest_model_run` returns
`now` minus the 3 hour publication-latency offset truncated down to the hour
boundary: the result's minute, second and sub-second components are all zero
and its value equals `now - 3 hours` rounded down to the hour. -/
theorem get_latest_model_run_hour_truncated (now : Int) :
    pyMinute (get_latest_model_run now) = 0 ∧
    pySecond (get_latest_model_run now) = 0 ∧
    pyMicrosecond (get_latest_model_run now) = 0 ∧
    get_latest_model_run now = usPerHour * ((now - 3 * usPerHour) / usPerHour) := by
  have hr : get_latest_model_run now
      = (now - 3 * usPerHour) - (now - 3 * usPerHour) % usPerHour := by
    unfold get_latest_model_run
    dsimp only
    exact replaceSubHourZero_eq _
  refine ⟨?_, ?_, ?_, ?_⟩
  · rw [hr]
    unfold pyMinute
    rw [sub_emod_emod_usPerHour]
    simp
  · rw [hr]
    unfold pySecond
    rw [sub_emod_emod_usPerMinute]
    simp
  · rw [hr]
    unfold pyMicrosecond
    exact sub_emod_emod_usPerSecond _
  · rw [hr]
    exact sub_emod_eq_hour_floor _

/-- C10: the triple returned by `process_single_hour` is well formed: its
first component is the forecast hour it was invoked with, and its success
flag is `True` exactly when its artifact-path component is not `None`. -/
theorem process_single_hour_triple_well_formed (outDir : List Char) (env : TaskEnv)
    (mt : Int) (h : Nat) :
    (process_single_hour outDir env mt h).1.forecast_hour = h ∧
    ((process_single_hour outDir env mt h).1.success = true ↔
      (process_single_hour outDir env mt h).1.filepath ≠ none) := by
  rw [process_single_hour_fst]
  split <;> simp

/-- C6: for every model time, forecast hour and any exceptions the fetch,
decode or render stages raise, `process_single_hour` returns a normal
`(hour, path, success)` value; no exception leaves the task boundary. -/
theorem task_failures_contained (outDir : List Char) (env : TaskEnv) (mt : Int) (h : Nat) :
    ∃ lg, process_single_hour outDir env mt h = (⟨h, some (filePathFor outDir h), true⟩, lg)
        ∨ process_single_hour outDir env mt h = (⟨h, none, false⟩, lg) := by
  rcases process_single_hour_shape outDir env mt h with ⟨lg, hl⟩ | ⟨lg, hl⟩
  exacts [⟨lg, Or.inl hl⟩, ⟨lg, Or.inr hl⟩]

/-- C3 counterexample: a fetch that exceeds its time bound and a fetch that
raises a generic decode error deliver identical triples to the scheduler even
though the logged categories differ; the per-task result delivered to the
report does not carry a seven-way status. -/
theorem task_outcome_categories_collapse :
    (process_single_hour "output".data
        ⟨⟨61, .ok ⟨some 300, none, some 1, some 2⟩⟩, ⟨1, .ok ()⟩⟩ 0 0).1 =
      (process_single_hour "output".data
        ⟨⟨1, .error (.other "ValueError" "bad")⟩, ⟨1, .ok ()⟩⟩ 0 0).1
    ∧ (process_single_hour "output".data
        ⟨⟨61, .ok ⟨some 300, none, some 1, some 2⟩⟩, ⟨1, .ok ()⟩⟩ 0 0).2 ≠
      (process_single_hour "output".data
        ⟨⟨1, .error (.other "ValueError" "bad")⟩, ⟨1, .ok ()⟩⟩ 0 0).2 := by
  exact ⟨by decide, by decide⟩

/-- C3 (amended): every task delivers exactly one outcome triple whose status
space is binary — success with an artifact or failure without one; the finer
failure categories appear only in the printed log line, where a failed
fetch+decode stage is tagged by its exception through `fetchFailureLog`. -/
theorem task_outcome_binary_with_logged_category (outDir : List Char) (env : TaskEnv)
    (mt : Int) (h : Nat) :
    ((∃ p, (process_single_hour outDir env mt h).1 = ⟨h, some p, true⟩)
      ∨ (process_single_hour outDir env mt h).1 = ⟨h, none, false⟩)
    ∧ ∀ e, fetchAttempt env.fetch = .error e →
        (process_single_hour outDir env mt h).2 =
          [.processing h, fetchFailureLog h (construct_s3_path mt h) e] := by
  constructor
  · rcases process_single_hour_shape outDir env mt h with ⟨lg, hl⟩ | ⟨lg, hl⟩
    · exact Or.inl ⟨_, by rw [hl]⟩
    · exact Or.inr (by rw [hl])
  · intro e he
    rw [process_single_hour_eq, he]

theorem task_outcome_binary_with_logged_category_witness :
    (((∃ p, (process_single_hour "output".data ⟨⟨1, .error .fileNotFound⟩, ⟨1, .ok ()⟩⟩ 0 0).1
          = ⟨0, some p, true⟩)
      ∨ (process_single_hour "output".data ⟨⟨1, .error .fileNotFound⟩, ⟨1, .ok ()⟩⟩ 0 0).1
          = ⟨0, none, false⟩))
    ∧ (process_single_hour "output".data ⟨⟨1, .error .fileNotFound⟩, ⟨1, .ok ()⟩⟩ 0 0).2 =
        [.processing 0, fetchFailureLog 0 (construct_s3_path 0 0) .fileNotFound] :=
  ⟨(task_outcome_binary_with_logged_category "output".data
      ⟨⟨1, .error .fileNotFound⟩, ⟨1, .ok ()⟩⟩ 0 0).1,
   (task_outcome_binary_with_logged_category "output".data
      ⟨⟨1, .error .fileNotFound⟩, ⟨1, .ok ()⟩⟩ 0 0).2 .fileNotFound rfl⟩

/-- C4: a fetch+decode stage whose duration exceeds the 60 unit bound is
classified `Timeout` — never as a decode error and never as a success — no
matter what the underlying call would eventually have produced, and the
task's delivered outcome is a failure. -/
theorem fetch_timeout_precedence (b : StageBehavior RawDataset) (p : List Char) (h : Nat)
    (hd : 60 < b.duration) :
    download_and_process_grib b p h = (none, [.processing h, .fetchTimeout h])
    ∧ ∀ (outDir : List Char) (render : StageBehavior Unit) (mt : Int),
        (process_single_hour outDir ⟨b, render⟩ mt h).1 = ⟨h, none, false⟩ := by
  have hf : fetchAttempt b = .error .timeoutExc := by
    unfold fetchAttempt runWithTimeout
    rw [if_pos hd]
    rfl
  constructor
  · unfold download_and_process_grib
    rw [hf]
    rfl
  · intro outDir render mt
    rw [process_single_hour_fst]
    simp [hf, Except.isOk, Except.toBool]

theorem fetch_timeout_precedence_witness :
    60 < (61 : Nat) ∧
    download_and_process_grib ⟨61, .ok ⟨some 300, none, some 1, some 2⟩⟩ [] 0 =
      (none, [.processing 0, .fetchTimeout 0]) :=
  ⟨by decide,
   (fetch_timeout_precedence ⟨61, .ok ⟨some 300, none, some 1, some 2⟩⟩ [] 0 (by decide)).1⟩

/-- C5: the delivered outcome carries an artifact path exactly when both the
guarded fetch+decode stage and the guarded render stage succeed; when
fetch+decode fails the render stage is never invoked (the outcome does not
depend on the render behaviour) and there is no artifact, and when render
fails there is likewise no artifact. -/
theorem artifact_iff_both_stages (outDir : List Char) (env : TaskEnv) (mt : Int) (h : Nat) :
    ((process_single_hour outDir env mt h).1.filepath.isSome
        = ((fetchAttempt env.fetch).isOk && (runWithTimeout 30 env.render).isOk))
    ∧ (∀ render2 : StageBehavior Unit, (fetchAttempt env.fetch).isOk = false →
        process_single_hour outDir ⟨env.fetch, render2⟩ mt h
          = process_single_hour outDir env mt h)
    ∧ ((runWithTimeout 30 env.render).isOk = false →
        (process_single_hour outDir env mt h).1.filepath = none) := by
  refine ⟨?_, ?_, ?_⟩
  · rw [process_single_hour_fst]
    cases hof : (fetchAttempt env.fetch).isOk <;>
      cases hor : (runWithTimeout 30 env.render).isOk <;> simp [hof, hor]
  · intro render2 hfail
    rcases hfe : fetchAttempt env.fetch with e | d
    · rw [process_single_hour_eq, process_single_hour_eq]
      simp [hfe]
    · rw [hfe] at hfail
      simp [Except.isOk, Except.toBool] at hfail
  · intro hrfail
    rw [process_single_hour_fst]
    simp [hrfail]

theorem artifact_iff_both_stages_witness :
    (process_single_hour "output".data ⟨⟨1, .error .fileNotFound⟩, ⟨99, .ok ()⟩⟩ 0 0
        = process_single_hour "output".data ⟨⟨1, .error .fileNotFound⟩, ⟨1, .ok ()⟩⟩ 0 0)
    ∧ (process_single_hour "output".data
        ⟨⟨1, .ok ⟨some 300, none, some 1, some 2⟩⟩, ⟨31, .ok ()⟩⟩ 0 0).1.filepath = none :=
  ⟨(artifact_iff_both_stages "output".data ⟨⟨1, .error .fileNotFound⟩, ⟨1, .ok ()⟩⟩ 0 0).2.1
      ⟨99, .ok ()⟩ rfl,
   (artifact_iff_both_stages "output".data
      ⟨⟨1, .ok ⟨some 300, none, some 1, some 2⟩⟩, ⟨31, .ok ()⟩⟩ 0 0).2.2 rfl⟩

/-! ## Helper lemmas about the scheduler -/

/-- The hour slot of a delivered triple is the hour the task was invoked
with. -/
theorem process_single_hour_hour (outDir : List Char) (env : TaskEnv) (mt : Int) (h : Nat) :
    (process_single_hour outDir env mt h).1.forecast_hour = h := by
  rw [process_single_hour_fst]
  split <;> rfl

theorem deliveredResults_hours (outDir : List Char) (envs : Nat → TaskEnv) (now : Int)
    (order : List Nat) :
    (deliveredResults outDir envs now order).map TaskResult.forecast_hour = order := by
  unfold deliveredResults
  rw [List.map_map]
  have hc : ∀ h ∈ order, (TaskResult.forecast_hour ∘ fun h =>
      (process_single_hour outDir (envs h) (get_latest_model_run now) h).1) h = id h :=
    fun h _ => process_single_hour_hour outDir (envs h) (get_latest_model_run now) h
  rw [List.map_congr_left hc, List.map_id]

/-- The test `if success and filepath is not None` of the collection loop,
as a partial projection. -/
def toGenerated (r : TaskResult) : Option (Nat × List Char) :=
  match r.filepath, r.success with
  | some fp, true => some (r.forecast_hour, fp)
  | _, _ => none

theorem collectResults_cons (r : TaskResult) (rest : List TaskResult) :
    collectResults (r :: rest) =
      match toGenerated r with
      | some p => (p :: (collectResults rest).1, (collectResults rest).2)
      | none => ((collectResults rest).1, r.forecast_hour :: (collectResults rest).2) := by
  rcases r with ⟨h, fp, s⟩
  rcases fp with _ | fp <;> cases s <;> rfl

theorem toGenerated_fst {r : TaskResult} {p : Nat × List Char}
    (hg : toGenerated r = some p) : p.1 = r.forecast_hour := by
  rcases r with ⟨h, fp, s⟩
  rcases fp with _ | fp <;> cases s <;> simp [toGenerated] at hg <;> simp [← hg]

theorem collectResults_fst (rs : List TaskResult) :
    (collectResults rs).1 = rs.filterMap toGenerated := by
  induction rs with
  | nil => rfl
  | cons r rest ih =>
    rw [collectResults_cons, List.filterMap_cons]
    cases toGenerated r <;> simp [ih]

/-- Success hours and failed hours together are a permutation of the
delivered hours. -/
theorem collectResults_hours_perm (rs : List TaskResult) :
    ((collectResults rs).1.map Prod.fst ++ (collectResults rs).2).Perm
      (rs.map TaskResult.forecast_hour) := by
  induction rs with
  | nil => simp [collectResults]
  | cons r rest ih =>
    rw [collectResults_cons]
    cases hg : toGenerated r with
    | none =>
      dsimp only
      rw [List.map_cons]
      exact List.perm_middle.trans (ih.cons _)
    | some p =>
      dsimp only
      rw [List.map_cons, List.map_cons, List.cons_append, toGenerated_fst hg]
      exact ih.cons _

/-- Collecting a prefix of the delivered results yields a prefix of each of
the two collected lists. -/
theorem collectResults_take (k : Nat) (rs : List TaskResult) :
    (∃ t1, (collectResults rs).1 = (collectResults (rs.take k)).1 ++ t1)
    ∧ (∃ t2, (collectResults rs).2 = (collectResults (rs.take k)).2 ++ t2) := by
  induction rs generalizing k with
  | nil => exact ⟨⟨[], by simp [collectResults]⟩, ⟨[], by simp [collectResults]⟩⟩
  | cons r rest ih =>
    cases k with
    | zero =>
      constructor
      · exact ⟨(collectResults (r :: rest)).1, by rw [List.take_zero]; rfl⟩
      · exact ⟨(collectResults (r :: rest)).2, by rw [List.take_zero]; rfl⟩
    | succ k =>
      rw [List.take_succ_cons, collectResults_cons, collectResults_cons]
      rcases ih k with ⟨⟨t1, h1⟩, ⟨t2, h2⟩⟩
      cases toGenerated r <;> dsimp only <;>
        exact ⟨⟨t1, by simp [h1]⟩, ⟨t2, by simp [h2]⟩⟩

theorem process_full_run_none (outDir : List Char) (envs : Nat → TaskEnv) (now : Int)
    (order : List Nat) (M : Nat) :
    process_full_run outDir envs now order none M =
      { returned := .paths ((sortByHour
            (collectResults (deliveredResults outDir envs now order)).1).map Prod.snd)
        failed_hours := (collectResults (deliveredResults outDir envs now order)).2
        success_count := ((sortByHour
            (collectResults (deliveredResults outDir envs now order)).1).map Prod.snd).length
        total_count := M + 1
        failed_sorted := sortNat (collectResults (deliveredResults outDir envs now order)).2 } :=
  rfl

theorem process_full_run_fault (outDir : List Char) (envs : Nat → TaskEnv) (now : Int)
    (order : List Nat) (M k : Nat) :
    process_full_run outDir envs now order (some k) M =
      { returned := .pairs (collectResults
            ((deliveredResults outDir envs now order).take k)).1
        failed_hours := (collectResults ((deliveredResults outDir envs now order).take k)).2
        success_count := (collectResults ((deliveredResults outDir envs now order).take k)).1.length
        total_count := M + 1
        failed_sorted := sortNat
            (collectResults ((deliveredResults outDir envs now order).take k)).2 } :=
  rfl

theorem sortByHour_sorted (l : List (Nat × List Char)) :
    List.Pairwise (fun a b : Nat × List Char => a.1 ≤ b.1) (sortByHour l) := by
  have h := @List.sorted_mergeSort (Nat × List Char)
      (fun a b : Nat × List Char => Nat.ble a.1 b.1)
      (fun a b c hab hbc => by simp only [Nat.ble_eq] at *; omega)
      (fun a b => by simp only [Bool.or_eq_true, Nat.ble_eq]; omega) l
  exact h.imp fun hab => by simpa [Nat.ble_eq] using hab

/-- Sorting by hour is determined by the multiset of pairs once the hours are
distinct: any two permuted inputs sort to the same list. -/
theorem sortByHour_eq_of_perm {l1 l2 : List (Nat × List Char)} (hp : l1.Perm l2)
    (hnd : (l1.map Prod.fst).Nodup) : sortByHour l1 = sortByHour l2 := by
  have hperm : (sortByHour l1).Perm (sortByHour l2) :=
    (List.mergeSort_perm l1 _).trans (hp.trans (List.mergeSort_perm l2 _).symm)
  have e1 : ((sortByHour l1).map Prod.fst).Perm (l1.map Prod.fst) :=
    (List.mergeSort_perm l1 _).map Prod.fst
  have hnd1 : ((sortByHour l1).map Prod.fst).Nodup := e1.symm.nodup hnd
  have hnd2 : ((sortByHour l2).map Prod.fst).Nodup := by
    have e2 : ((sortByHour l2).map Prod.fst).Perm (l2.map Prod.fst) :=
      (List.mergeSort_perm l2 _).map Prod.fst
    exact e2.symm.nodup ((hp.map Prod.fst).nodup hnd)
  have hstrict1 : List.Pairwise (fun a b : Nat × List Char => a.1 < b.1) (sortByHour l1) := by
    have hne : List.Pairwise (fun a b : Nat × List Char => a.1 ≠ b.1) (sortByHour l1) :=
      List.pairwise_map.1 hnd1
    exact ((sortByHour_sorted l1).and hne).imp fun h => lt_of_le_of_ne h.1 h.2
  have hstrict2 : List.Pairwise (fun a b : Nat × List Char => a.1 < b.1) (sortByHour l2) := by
    have hne : List.Pairwise (fun a b : Nat × List Char => a.1 ≠ b.1) (sortByHour l2) :=
      List.pairwise_map.1 hnd2
    exact ((sortByHour_sorted l2).and hne).imp fun h => lt_of_le_of_ne h.1 h.2
  haveI : IsAntisymm (Nat × List Char) (fun a b : Nat × List Char => a.1 < b.1) :=
    ⟨fun a b hab hba => absurd (lt_trans hab hba) (lt_irrefl _)⟩
  exact List.eq_of_perm_of_sorted hperm hstrict1 hstrict2

/-! ## Claims about the scheduler -/

/-- C1: one invocation of the scheduler with completion order a permutation
of the submitted hours processes exactly the lead hours 0..M: the success
hours together with the failed hours are a permutation of 0..M with no
duplicates, and `process_full_run` reports exactly these two lists. -/
theorem run_covers_all_lead_hours (outDir : List Char) (envs : Nat → TaskEnv) (now : Int)
    (order : List Nat) (M : Nat) (hperm : order.Perm (List.range (M + 1))) :
    ((collectResults (deliveredResults outDir envs now order)).1.map Prod.fst
        ++ (collectResults (deliveredResults outDir envs now order)).2).Perm
      (List.range (M + 1))
    ∧ ((collectResults (deliveredResults outDir envs now order)).1.map Prod.fst
        ++ (collectResults (deliveredResults outDir envs now order)).2).Nodup
    ∧ (process_full_run outDir envs now order none M).failed_hours
        = (collectResults (deliveredResults outDir envs now order)).2
    ∧ (process_full_run outDir envs now order none M).returned
        = .paths ((sortByHour
            (collectResults (deliveredResults outDir envs now order)).1).map Prod.snd) := by
  have hp : ((collectResults (deliveredResults outDir envs now order)).1.map Prod.fst
      ++ (collectResults (deliveredResults outDir envs now order)).2).Perm
        (List.range (M + 1)) := by
    have h1 := collectResults_hours_perm (deliveredResults outDir envs now order)
    rw [deliveredResults_hours] at h1
    exact h1.trans hperm
  exact ⟨hp, hp.symm.nodup (List.nodup_range _), rfl, rfl⟩

/-- C2: after a clean run the returned artifact list is the success pairs
sorted in ascending lead-hour order, and it is the same whatever completion
order the workers produced. -/
theorem artifacts_sorted_completion_order_independent (outDir : List Char)
    (envs : Nat → TaskEnv) (now : Int) (order1 order2 : List Nat) (M : Nat)
    (h1 : order1.Perm (List.range (M + 1))) (h2 : order2.Perm (List.range (M + 1))) :
    (process_full_run outDir envs now order1 none M).returned
      = (process_full_run outDir envs now order2 none M).returned
    ∧ (process_full_run outDir envs now order1 none M).returned
      = .paths ((sortByHour
          (collectResults (deliveredResults outDir envs now order1)).1).map Prod.snd)
    ∧ List.Pairwise (fun a b : Nat × List Char => a.1 ≤ b.1)
        (sortByHour (collectResults (deliveredResults outDir envs now order1)).1) := by
  have hd12 : (deliveredResults outDir envs now order1).Perm
      (deliveredResults outDir envs now order2) := by
    unfold deliveredResults
    exact (h1.trans h2.symm).map _
  have hpairs : (collectResults (deliveredResults outDir envs now order1)).1.Perm
      (collectResults (deliveredResults outDir envs now order2)).1 := by
    rw [collectResults_fst, collectResults_fst]
    exact hd12.filterMap _
  have hnd : ((collectResults (deliveredResults outDir envs now order1)).1.map
      Prod.fst).Nodup := by
    have h := collectResults_hours_perm (deliveredResults outDir envs now order1)
    rw [deliveredResults_hours] at h
    exact ((h.trans h1).symm.nodup (List.nodup_range _)).of_append_left
  have hsorteq : sortByHour (collectResults (deliveredResults outDir envs now order1)).1
      = sortByHour (collectResults (deliveredResults outDir envs now order2)).1 :=
    sortByHour_eq_of_perm hpairs hnd
  refine ⟨?_, rfl, sortByHour_sorted _⟩
  rw [process_full_run_none, process_full_run_none]
  simp only [hsorteq]

/-- C7: if the pool machinery faults after `k` results were collected, the
scheduler still reaches its summary and returns exactly the outcomes
collected before the fault, which are a prefix of what a full collection
would have produced. -/
theorem pool_fault_preserves_partial_results (outDir : List Char) (envs : Nat → TaskEnv)
    (now : Int) (order : List Nat) (M k : Nat) :
    (process_full_run outDir envs now order (some k) M).returned
        = .pairs (collectResults ((deliveredResults outDir envs now order).take k)).1
    ∧ (process_full_run outDir envs now order (some k) M).failed_hours
        = (collectResults ((deliveredResults outDir envs now order).take k)).2
    ∧ (process_full_run outDir envs now order (some k) M).success_count
        = (collectResults ((deliveredResults outDir envs now order).take k)).1.length
    ∧ (process_full_run outDir envs now order (some k) M).total_count = M + 1
    ∧ (∃ t, (collectResults (deliveredResults outDir envs now order)).1
        = (collectResults ((deliveredResults outDir envs now order).take k)).1 ++ t)
    ∧ (∃ t, (collectResults (deliveredResults outDir envs now order)).2
        = (collectResults ((deliveredResults outDir envs now order).take k)).2 ++ t) :=
  ⟨rfl, rfl, rfl, rfl, (collectResults_take k _).1, (collectResults_take k _).2⟩

/-- A concrete environment in which both stages finish quickly and
successfully. -/
def envAllOk : TaskEnv :=
  ⟨⟨1, .ok ⟨some 300, none, some 1, some 2⟩⟩, ⟨1, .ok ()⟩⟩

theorem run_covers_all_lead_hours_witness :
    ([0] : List Nat).Perm (List.range 1)
    ∧ ((collectResults (deliveredResults "output".data (fun _ => envAllOk) 0 [0])).1.map
          Prod.fst
        ++ (collectResults (deliveredResults "output".data (fun _ => envAllOk) 0 [0])).2).Perm
      (List.range 1) :=
  ⟨by decide,
   (run_covers_all_lead_hours "output".data (fun _ => envAllOk) 0 [0] 0 (by decide)).1⟩

theorem artifacts_sorted_completion_order_independent_witness :
    ([0] : List Nat).Perm (List.range 1)
    ∧ (process_full_run "output".data (fun _ => envAllOk) 0 [0] none 0).returned
      = .paths ((sortByHour (collectResults
          (deliveredResults "output".data (fun _ => envAllOk) 0 [0])).1).map Prod.snd) :=
  ⟨by decide,
   (artifacts_sorted_completion_order_independent "output".data (fun _ => envAllOk) 0
      [0] [0] 0 (by decide) (by decide)).2.1⟩

/-! ## Injectivity of the path resolver -/

theorem digitChar_inj_lt : ∀ a, a < 10 → ∀ b, b < 10 →
    Nat.digitChar a = Nat.digitChar b → a = b := by decide

theorem digitChar_eq_zero_char : ∀ d, d < 10 → Nat.digitChar d = '0' → d = 0 := by decide

theorem decDigits_lt (n : Nat) : ∀ d ∈ decDigits n, d < 10 := by
  unfold decDigits
  split
  · intro d hd
    simp at hd
    omega
  · intro d hd
    rw [List.mem_reverse] at hd
    exact Nat.digits_lt_base (by norm_num) hd

theorem digits_eq_of_reverse_eq {a b : Nat}
    (h : (Nat.digits 10 a).reverse = (Nat.digits 10 b).reverse) : a = b := by
  have h2 : Nat.digits 10 a = Nat.digits 10 b := by
    have h3 := congrArg List.reverse h
    simpa using h3
  calc a = Nat.ofDigits 10 (Nat.digits 10 a) := (Nat.ofDigits_digits 10 a).symm
    _ = Nat.ofDigits 10 (Nat.digits 10 b) := by rw [h2]
    _ = b := Nat.ofDigits_digits 10 b

theorem digits_reverse_ne_single_zero {b : Nat} (hb : b ≠ 0) :
    (Nat.digits 10 b).reverse ≠ [0] := by
  intro h
  have hd : Nat.digits 10 b = [0] := by
    have h3 := congrArg List.reverse h
    simpa using h3
  have h4 := Nat.ofDigits_digits 10 b
  rw [hd] at h4
  simp [Nat.ofDigits] at h4
  exact hb h4.symm

theorem decDigits_inj {a b : Nat} (h : decDigits a = decDigits b) : a = b := by
  unfold decDigits at h
  by_cases ha : a = 0 <;> by_cases hb : b = 0
  · omega
  · rw [if_pos ha, if_neg hb] at h
    exact absurd h.symm (digits_reverse_ne_single_zero hb)
  · rw [if_neg ha, if_pos hb] at h
    exact absurd h (digits_reverse_ne_single_zero ha)
  · rw [if_neg ha, if_neg hb] at h
    exact digits_eq_of_reverse_eq h

theorem map_digitChar_inj : ∀ (l1 l2 : List Nat), (∀ d ∈ l1, d < 10) → (∀ d ∈ l2, d < 10) →
    l1.map Nat.digitChar = l2.map Nat.digitChar → l1 = l2 := by
  intro l1
  induction l1 with
  | nil =>
    intro l2 _ _ h
    cases l2 with
    | nil => rfl
    | cons e l2t => simp at h
  | cons d l ih =>
    intro l2 h1 h2 h
    cases l2 with
    | nil => simp at h
    | cons e l2t =>
      simp only [List.map_cons, List.cons.injEq] at h
      have hd : d = e := digitChar_inj_lt d (h1 d (by simp)) e (h2 e (by simp)) h.1
      have ht : l = l2t :=
        ih l2t (fun x hx => h1 x (by simp [hx])) (fun x hx => h2 x (by simp [hx])) h.2
      rw [hd, ht]

theorem decChars_inj {a b : Nat} (h : decChars a = decChars b) : a = b :=
  decDigits_inj (map_digitChar_inj _ _ (decDigits_lt a) (decDigits_lt b) h)

theorem decChars_head_ne_zero_char {b : Nat} (hb : 10 ≤ b) :
    (decChars b).head? ≠ some '0' := by
  unfold decChars decDigits
  rw [if_neg (by omega)]
  rw [List.head?_map, List.head?_reverse]
  have hne : Nat.digits 10 b ≠ [] := Nat.digits_ne_nil_iff_ne_zero.mpr (by omega)
  rw [List.getLast?_eq_getLast _ hne]
  intro hc
  rw [Option.map_some'] at hc
  have h0 : (Nat.digits 10 b).getLast hne ≠ 0 := Nat.getLast_digit_ne_zero 10 (by omega)
  have hlt : (Nat.digits 10 b).getLast hne < 10 :=
    Nat.digits_lt_base (by norm_num) (List.getLast_mem hne)
  have := digitChar_eq_zero_char _ hlt (by injection hc)
  exact h0 this

theorem pad2_inj {a b : Nat} (h : pad2 a = pad2 b) : a = b := by
  unfold pad2 at h
  by_cases ha : a < 10 <;> by_cases hb : b < 10
  · rw [if_pos ha, if_pos hb] at h
    injection h with h1 h2
    exact decChars_inj h2
  · rw [if_pos ha, if_neg hb] at h
    exact absurd (show (decChars b).head? = some '0' by rw [← h]; rfl)
      (decChars_head_ne_zero_char (by omega))
  · rw [if_neg ha, if_pos hb] at h
    exact absurd (show (decChars a).head? = some '0' by rw [h]; rfl)
      (decChars_head_ne_zero_char (by omega))
  · rw [if_neg ha, if_neg hb] at h
    exact decChars_inj h

theorem construct_s3_path_parts (mt : Int) (h : Nat) :
    construct_s3_path mt h =
      ("noaa-hrrr-bdp-pds/hrrr.".data ++ dateStr mt ++ "/conus/hrrr.t".data ++ hourStr mt
        ++ "z.wrfsfcf".data) ++ (pad2 h ++ ".grib2".data) := by
  unfold construct_s3_path
  simp [List.append_assoc]

/-- C8: path resolution is a pure function of the model run and lead hour:
resolving the same pair twice yields the identical key, and distinct lead
hours for the same run always resolve to distinct keys. -/
theorem construct_s3_path_pure_injective (mt : Int) (h1 h2 : Nat) (hne : h1 ≠ h2) :
    construct_s3_path mt h1 = construct_s3_path mt h1
    ∧ construct_s3_path mt h1 ≠ construct_s3_path mt h2 := by
  refine ⟨rfl, fun hcontra => hne ?_⟩
  rw [construct_s3_path_parts, construct_s3_path_parts] at hcontra
  have h3 := List.append_cancel_left hcontra
  have h4 := List.append_cancel_right h3
  exact pad2_inj h4

theorem construct_s3_path_pure_injective_witness :
    (0 : Nat) ≠ 1
    ∧ (construct_s3_path 0 0 = construct_s3_path 0 0
        ∧ construct_s3_path 0 0 ≠ construct_s3_path 0 1) :=
  ⟨by decide, construct_s3_path_pure_injective 0 0 1 (by decide)⟩
